import Mathlib

/-!
Shallow embedding of the Streletz serial-protocol frame assembler
(`src/streletz/pd.py`, class `Decoder`), together with theorems about its
byte-stream state machine: header search, direction lock, size validation,
data/checksum handling and packet emission.

The Python decoder is a stateful object; here it is embedded as a pure
state-passing function `handle_byte : DecoderState → … → Option (DecoderState × List OutAnn)`.
The `Option` models Python exceptions: `none` is returned exactly where the
Python code would evaluate an unset (`None`) field in a comparison or use it
as a timestamp, so totality on reachable states is a provable property.
-/

set_option maxHeartbeats 1000000

namespace Streletz

/-- Direction constant, source `RX = 0` (response channel). Directions are the
two values `0`/`1` in the source; they are embedded as `Bool`. -/
def RX : Bool := false

/-- Direction constant, source `TX = 1` (request channel). -/
def TX : Bool := true

/-- Source `PACKETSIZE_MAX = 64`; also the `maxlen` of the `accum_bytes` deque. -/
def PACKETSIZE_MAX : Nat := 64

/-- Source `PACKETSIZE_MIN = 4`. -/
def PACKETSIZE_MIN : Nat := 4

/-- Source `BufPos.HEADER = 1`. -/
def BufPos.HEADER : Nat := 1

/-- Source `BufPos.DATA_SIZE = 2`. -/
def BufPos.DATA_SIZE : Nat := 2

/-- Source `BufPos.DATA_TYPE = 3`. -/
def BufPos.DATA_TYPE : Nat := 3

/-- Source `BufPos.DATA_START = 4`. -/
def BufPos.DATA_START : Nat := 4

/-- The ten annotation classes of the source `class Ann`. -/
inductive Ann : Type where
  | HEADER
  | DATASIZE
  | CHECKSUM
  | ANSWER
  | COMMAND
  | DATA_RX
  | DATA_TX
  | PACKET_RX
  | PACKET_TX
  | WARN
deriving DecidableEq, Repr

/-- Source `byte_to_hex`: Python `'{:02X}'.format(byte)` — upper-case hex,
zero-padded to at least two digits. -/
def byte_to_hex (byte : Nat) : String :=
  let ds : List Char := (Nat.toDigits 16 byte).map Char.toUpper
  String.mk (if ds.length < 2 then List.replicate (2 - ds.length) '0' ++ ds else ds)

/-- Source `bytes_to_hex`: hex rendering of each byte, joined with spaces. -/
def bytes_to_hex (data : List Nat) : String :=
  String.intercalate " " (data.map byte_to_hex)

/-- Source `time_sec_str`: Python `"{:8.3f} ".format(mks * 1e-6)`.  The Python
original goes through binary floating point; this model renders the same
value in exact fixed-point decimal (truncated to milliseconds, right-aligned
to width 8, trailing space).  Every theorem below is stated with
`print_sec = false`, so no claim depends on this rendering. -/
def time_sec_str (mks : Int) : String :=
  let ms : Int := mks / 1000
  let intPart : String := toString (ms / 1000)
  let fracNat : Nat := (ms % 1000).natAbs
  let fracRaw : String := toString fracNat
  let frac : String :=
    String.mk (List.replicate (3 - fracRaw.length) '0') ++ fracRaw
  let core : String := intPart ++ "." ++ frac
  (if core.length < 8 then String.mk (List.replicate (8 - core.length) ' ') ++ core
   else core) ++ " "

/-- The mutable fields of the source `Decoder` object that the frame assembler
uses (`checksum`, `accum_bytes`, `rxtx`, `packet_size`, `packet_ss`,
`packet_es`, `data_ss`, `buf_pos`), together with the immutable session
configuration set in `start()` (`header = (header_rx, header_tx)` and
`print_sec`). `Option` embeds Python `None`. -/
structure DecoderState : Type where
  checksum : Nat
  accum_bytes : List Nat
  rxtx : Bool
  packet_size : Option Nat
  packet_ss : Option Int
  packet_es : Option Int
  data_ss : Option Int
  buf_pos : Nat
  header_rx : Nat
  header_tx : Nat
  print_sec : Bool
deriving DecidableEq, Repr

/-- Source `self.header[rxtx]` where `self.header = (header_rx, header_tx)`
and `rxtx` is `RX = 0` or `TX = 1`. -/
def DecoderState.header (s : DecoderState) (rxtx : Bool) : Nat :=
  if rxtx = TX then s.header_tx else s.header_rx

/-- One emitted annotation: the `(ss, es, [ann_class, labels])` triple the
source passes to `self.put` via `putg`. -/
structure OutAnn : Type where
  ss : Int
  es : Int
  ann : Ann
  labels : List String
deriving DecidableEq, Repr

/-- Source `Decoder.putg`: when `print_sec` is set, the first (most verbose)
label is prefixed with the rendered start time. -/
def putg (s : DecoderState) (ss es : Int) (ann : Ann) (labels : List String) : OutAnn :=
  { ss := ss, es := es, ann := ann,
    labels :=
      if s.print_sec then
        match labels with
        | [] => []
        | l :: ls => (time_sec_str ss ++ l) :: ls
      else labels }

/-- `deque.append` on a deque with `maxlen = PACKETSIZE_MAX`: when full, the
oldest element is dropped from the left. -/
def dequeAppend (xs : List Nat) (b : Nat) : List Nat :=
  let ys := xs ++ [b]
  if ys.length > PACKETSIZE_MAX then ys.drop (ys.length - PACKETSIZE_MAX) else ys

/-- `itertools.islice(xs, a, b)`: the elements at indices `a … b-1`. -/
def islice (xs : List Nat) (a b : Nat) : List Nat :=
  (xs.take b).drop a

/-- Running XOR of a byte list (the value the source accumulates in
`self.checksum`). -/
def xorAll (xs : List Nat) : Nat :=
  xs.foldl (fun a b => a ^^^ b) 0

/-- Source `Decoder.reset`: clears every mutable field; the session
configuration (`header`, `print_sec`) is untouched. -/
def reset (s : DecoderState) : DecoderState :=
  { s with checksum := 0, accum_bytes := [], rxtx := RX, packet_size := none,
           packet_ss := none, packet_es := none, data_ss := none, buf_pos := 0 }

/-- Source `Decoder.__init__` followed by `start()`: all mutable fields are in
the reset state; the two header bytes and `print_sec` come from the options. -/
def initState (header_rx header_tx : Nat) (print_sec : Bool) : DecoderState :=
  { checksum := 0, accum_bytes := [], rxtx := RX, packet_size := none,
    packet_ss := none, packet_es := none, data_ss := none, buf_pos := 0,
    header_rx := header_rx, header_tx := header_tx, print_sec := print_sec }

/-- Prepend one already-emitted annotation to the result of the rest of the
call (used to keep emission order when a branch falls through to the shared
end-of-data / checksum checks). -/
def prependAnn (ev : OutAnn) (r : Option (DecoderState × List OutAnn)) :
    Option (DecoderState × List OutAnn) :=
  match r with
  | none => none
  | some (s, evs) => some (s, ev :: evs)

/-- Source `handle_byte`, lines 183–206: the end-of-data-block check
(`packet_size > PACKETSIZE_MIN and buf_pos == packet_size - 1`) and the
checksum / end-of-packet check (`buf_pos == packet_size`), shared by every
branch of the `buf_pos ≥ BufPos.HEADER` arm that does not return early.
Evaluating the unset `packet_size` (Python `None`) in the comparisons, or
using an unset timestamp in an emission, is modelled as `none`. -/
def tail_checks (s : DecoderState) (ss es : Int) (byte : Nat) (rxtx : Bool) :
    Option (DecoderState × List OutAnn) :=
  match s.packet_size with
  | none => none
  | some ps =>
    if ps > PACKETSIZE_MIN ∧ s.buf_pos = ps - 1 then
      match s.data_ss with
      | none => none
      | some dss =>
        let data_str := bytes_to_hex (islice s.accum_bytes (BufPos.DATA_START - 1) (ps - 1))
        let rxtx_str := if rxtx = TX then "TX" else "RX"
        some (s, [putg s dss es (if rxtx = TX then Ann.DATA_TX else Ann.DATA_RX)
          [rxtx_str ++ " DATA: " ++ data_str, rxtx_str ++ "DATA", rxtx_str ++ "D", "D"]])
    else if s.buf_pos = ps then
      let csEv := putg s ss es Ann.CHECKSUM ["CS: 0x" ++ byte_to_hex byte, "CS"]
      let s1 : DecoderState := { s with packet_es := some es }
      if s1.checksum = 0 then
        match s1.packet_ss with
        | none => none
        | some pss =>
          let packet_str := bytes_to_hex s1.accum_bytes
          let rxtx_str := if rxtx = TX then "TX" else "RX"
          some (reset s1, [csEv,
            putg s1 pss es (if rxtx = TX then Ann.PACKET_TX else Ann.PACKET_RX)
              [rxtx_str ++ " PACKET: " ++ packet_str, rxtx_str ++ " PACKET", rxtx_str ++ "P"]])
      else
        some (reset s1, [csEv])
    else
      some (s, [])

/-- Source `Decoder.handle_byte`, the whole frame-assembler step: direction
lock, header search, body accumulation, size validation, type/data/checksum
annotation and packet emission.  Returns the new state and the annotations
emitted by this call, in emission order; `none` models a Python exception
(use of an unset field). -/
def handle_byte (s0 : DecoderState) (ss es : Int) (byte : Nat) (rxtx : Bool) :
    Option (DecoderState × List OutAnn) :=
  let s :=
    if s0.buf_pos > 0 then
      if s0.rxtx = rxtx then
        { s0 with buf_pos := s0.buf_pos + 1,
                  accum_bytes := dequeAppend s0.accum_bytes byte,
                  checksum := s0.checksum ^^^ byte }
      else reset s0
    else s0
  if s.buf_pos < BufPos.HEADER then
    -- wait header
    if byte = s.header rxtx then
      let s1 : DecoderState :=
        { s with buf_pos := BufPos.HEADER, rxtx := rxtx,
                 accum_bytes := dequeAppend s.accum_bytes byte,
                 packet_ss := some ss, checksum := byte }
      some (s1, [putg s1 ss es Ann.HEADER
        ["HEAD: 0x" ++ byte_to_hex byte, "HEAD", "H"]])
    else
      some (s, [])
  else
    if s.buf_pos = BufPos.DATA_SIZE then
      -- data size
      let s2 : DecoderState := { s with packet_size := some (PACKETSIZE_MIN + byte) }
      if PACKETSIZE_MIN + byte > PACKETSIZE_MAX then
        some (reset s2, [putg s2 ss es Ann.WARN
          ["Wrong DS: 0x" ++ byte_to_hex byte, "WDS"]])
      else
        prependAnn (putg s2 ss es Ann.DATASIZE ["DS: 0x" ++ byte_to_hex byte, "DS"])
          (tail_checks s2 ss es byte rxtx)
    else if s.buf_pos = BufPos.DATA_TYPE then
      -- data type: command or answer
      prependAnn
        (if rxtx = TX then putg s ss es Ann.COMMAND ["CMD: 0x" ++ byte_to_hex byte, "CMD"]
         else putg s ss es Ann.ANSWER ["ANS: 0x" ++ byte_to_hex byte, "ANS"])
        (tail_checks s ss es byte rxtx)
    else if s.buf_pos = BufPos.DATA_START then
      -- start of data
      tail_checks { s with data_ss := some ss } ss es byte rxtx
    else
      tail_checks s ss es byte rxtx

/-- One timestamped, direction-tagged byte event, as delivered by the
upstream UART decoder through `Decoder.decode`. -/
structure ByteEvent : Type where
  ss : Int
  es : Int
  value : Nat
  rxtx : Bool
deriving DecidableEq, Repr

/-- Feeding a whole sequence of byte events through `handle_byte`, collecting
all emitted annotations in order. -/
def runBytes : DecoderState → List ByteEvent → Option (DecoderState × List OutAnn)
  | s, [] => some (s, [])
  | s, e :: rest =>
    match handle_byte s e.ss e.es e.value e.rxtx with
    | none => none
    | some (s', evs) =>
      match runBytes s' rest with
      | none => none
      | some (s'', evs') => some (s'', evs ++ evs')

/-- The states a decoding session can actually be in: the freshly started
decoder, plus anything produced by a (non-raising) `handle_byte` call or by
`reset`. -/
inductive Reachable : DecoderState → Prop where
  | init : ∀ hrx htx psec, Reachable (initState hrx htx psec)
  | step : ∀ s ss es b d s' evs, Reachable s →
      handle_byte s ss es b d = some (s', evs) → Reachable s'
  | doReset : ∀ s, Reachable s → Reachable (reset s)

/-- The specification's StreamState invariant: while collecting, the buffer
length equals `buf_pos` and `checksum` is the XOR of exactly the buffer;
while idle, the buffer is empty and `checksum` is zero. -/
def StateInv (s : DecoderState) : Prop :=
  (s.buf_pos > 0 → s.accum_bytes.length = s.buf_pos ∧ s.checksum = xorAll s.accum_bytes) ∧
  (s.buf_pos = 0 → s.accum_bytes = [] ∧ s.checksum = 0)

/-- Full inductive invariant of reachable decoder states, strengthening
`StateInv` with: an idle state is exactly a reset state; `packet_ss` is set
once a header matched; `packet_size` is set, in range and still ahead of
`buf_pos` once the size byte was accepted; `data_ss` is set from the fourth
byte on. -/
def Inv (s : DecoderState) : Prop :=
  s.accum_bytes.length = s.buf_pos ∧
  s.checksum = xorAll s.accum_bytes ∧
  (s.buf_pos = 0 → s = reset s) ∧
  (1 ≤ s.buf_pos → s.packet_ss.isSome) ∧
  (2 ≤ s.buf_pos → ∃ ps, s.packet_size = some ps ∧ 4 ≤ ps ∧ ps ≤ 64 ∧ s.buf_pos < ps) ∧
  (4 ≤ s.buf_pos → s.data_ss.isSome)

/-- Is this annotation a whole-packet event? -/
def isPacketEvent (ev : OutAnn) : Bool :=
  decide (ev.ann = Ann.PACKET_RX ∨ ev.ann = Ann.PACKET_TX)

/-- Is this annotation a warning event? -/
def isWarnEvent (ev : OutAnn) : Bool :=
  decide (ev.ann = Ann.WARN)

/-- Is this annotation a data-block event? -/
def isDataEvent (ev : OutAnn) : Bool :=
  decide (ev.ann = Ann.DATA_RX ∨ ev.ann = Ann.DATA_TX)

theorem reset_reset (s : DecoderState) : reset (reset s) = reset s := rfl

theorem reset_initState (hrx htx : Nat) (psec : Bool) :
    reset (initState hrx htx psec) = initState hrx htx psec := rfl

theorem dequeAppend_eq_append (xs : List Nat) (b : Nat) (h : xs.length < PACKETSIZE_MAX) :
    dequeAppend xs b = xs ++ [b] := by
  unfold dequeAppend
  rw [if_neg]
  simp only [List.length_append, List.length_cons, List.length_nil, PACKETSIZE_MAX] at *
  omega

theorem handle_byte_idle_nohdr (s : DecoderState) (ss es : Int) (b : Nat) (d : Bool)
    (h0 : s.buf_pos = 0) (hh : b ≠ s.header d) :
    handle_byte s ss es b d = some (s, []) := by
  simp [handle_byte, h0, BufPos.HEADER, hh]

theorem handle_byte_idle_hdr (s : DecoderState) (ss es : Int) (b : Nat) (d : Bool)
    (h0 : s.buf_pos = 0) (hh : b = s.header d) :
    handle_byte s ss es b d =
      some ({ s with buf_pos := 1, rxtx := d,
                     accum_bytes := dequeAppend s.accum_bytes b,
                     packet_ss := some ss, checksum := b },
        [putg s ss es Ann.HEADER ["HEAD: 0x" ++ byte_to_hex b, "HEAD", "H"]]) := by
  simp [handle_byte, h0, BufPos.HEADER, hh, putg]

theorem handle_byte_mismatch (s : DecoderState) (ss es : Int) (b : Nat) (d : Bool)
    (hpos : 0 < s.buf_pos) (hd : s.rxtx ≠ d) :
    handle_byte s ss es b d = handle_byte (reset s) ss es b d := by
  simp [handle_byte, hpos, hd, reset, BufPos.HEADER, DecoderState.header, putg]

theorem handle_byte_size_warn (s : DecoderState) (ss es : Int) (b : Nat) (d : Bool)
    (h1 : s.buf_pos = 1) (hd : s.rxtx = d) (hb : 60 < b) :
    handle_byte s ss es b d =
      some (reset s, [putg s ss es Ann.WARN ["Wrong DS: 0x" ++ byte_to_hex b, "WDS"]]) := by
  have hgt : PACKETSIZE_MIN + b > PACKETSIZE_MAX := by
    simp only [PACKETSIZE_MIN, PACKETSIZE_MAX]; omega
  simp [handle_byte, h1, hd, BufPos.HEADER, BufPos.DATA_SIZE, hgt, putg, reset]

theorem handle_byte_size_ok (s : DecoderState) (ss es : Int) (b : Nat) (d : Bool)
    (h1 : s.buf_pos = 1) (hd : s.rxtx = d) (hb : b ≤ 60)
    (hlen : s.accum_bytes.length < PACKETSIZE_MAX) :
    handle_byte s ss es b d =
      some ({ s with buf_pos := 2, accum_bytes := s.accum_bytes ++ [b],
                     checksum := s.checksum ^^^ b,
                     packet_size := some (PACKETSIZE_MIN + b) },
        [putg s ss es Ann.DATASIZE ["DS: 0x" ++ byte_to_hex b, "DS"]]) := by
  have hngt : ¬ PACKETSIZE_MIN + b > PACKETSIZE_MAX := by
    simp only [PACKETSIZE_MIN, PACKETSIZE_MAX]; omega
  have hc1 : ¬ (0 < b ∧ (2 : Nat) = PACKETSIZE_MIN + b - 1) := by
    simp only [PACKETSIZE_MIN]; omega
  have hc2 : (2 : Nat) ≠ PACKETSIZE_MIN + b := by
    simp only [PACKETSIZE_MIN]; omega
  simp [handle_byte, tail_checks, prependAnn, h1, hd, hb,
        BufPos.HEADER, BufPos.DATA_SIZE, BufPos.DATA_TYPE, BufPos.DATA_START,
        hngt, hc1, hc2, dequeAppend_eq_append _ _ hlen, putg]

theorem handle_byte_type (s : DecoderState) (ss es : Int) (b : Nat) (d : Bool) (ps : Nat)
    (h2 : s.buf_pos = 2) (hd : s.rxtx = d) (hps : s.packet_size = some ps) (hge : 4 ≤ ps)
    (hlen : s.accum_bytes.length < PACKETSIZE_MAX) :
    handle_byte s ss es b d =
      some ({ s with buf_pos := 3, accum_bytes := s.accum_bytes ++ [b],
                     checksum := s.checksum ^^^ b },
        [if d = TX then putg s ss es Ann.COMMAND ["CMD: 0x" ++ byte_to_hex b, "CMD"]
         else putg s ss es Ann.ANSWER ["ANS: 0x" ++ byte_to_hex b, "ANS"]]) := by
  have hc1 : ¬ (PACKETSIZE_MIN < ps ∧ (3 : Nat) = ps - 1) := by
    simp only [PACKETSIZE_MIN]; omega
  have hc2 : (3 : Nat) ≠ ps := by omega
  simp [handle_byte, tail_checks, prependAnn, h2, hd, hps,
        BufPos.HEADER, BufPos.DATA_SIZE, BufPos.DATA_TYPE, BufPos.DATA_START,
        hc1, hc2, dequeAppend_eq_append _ _ hlen, putg]

theorem handle_byte_pos4_cs (s : DecoderState) (ss es : Int) (b : Nat) (d : Bool) (pss : Int)
    (h3 : s.buf_pos = 3) (hd : s.rxtx = d) (hps : s.packet_size = some 4)
    (hpss : s.packet_ss = some pss)
    (hlen : s.accum_bytes.length < PACKETSIZE_MAX) :
    handle_byte s ss es b d =
      some (reset s,
        putg s ss es Ann.CHECKSUM ["CS: 0x" ++ byte_to_hex b, "CS"] ::
        (if s.checksum ^^^ b = 0 then
          [putg s pss es (if d = TX then Ann.PACKET_TX else Ann.PACKET_RX)
            [(if d = TX then "TX" else "RX") ++ " PACKET: " ++
               bytes_to_hex (s.accum_bytes ++ [b]),
             (if d = TX then "TX" else "RX") ++ " PACKET",
             (if d = TX then "TX" else "RX") ++ "P"]]
         else [])) := by
  by_cases hchk : s.checksum ^^^ b = 0 <;>
    simp [handle_byte, tail_checks, prependAnn, h3, hd, hps, hpss, hchk,
          BufPos.HEADER, BufPos.DATA_SIZE, BufPos.DATA_TYPE, BufPos.DATA_START,
          dequeAppend_eq_append _ _ hlen, putg, reset]

theorem handle_byte_pos4_data (s : DecoderState) (ss es : Int) (b : Nat) (d : Bool)
    (h3 : s.buf_pos = 3) (hd : s.rxtx = d) (hps : s.packet_size = some 5)
    (hlen : s.accum_bytes.length < PACKETSIZE_MAX) :
    handle_byte s ss es b d =
      some ({ s with buf_pos := 4, accum_bytes := s.accum_bytes ++ [b],
                     checksum := s.checksum ^^^ b, data_ss := some ss },
        [putg s ss es (if d = TX then Ann.DATA_TX else Ann.DATA_RX)
          [(if d = TX then "TX" else "RX") ++ " DATA: " ++
             bytes_to_hex (islice (s.accum_bytes ++ [b]) 3 4),
           (if d = TX then "TX" else "RX") ++ "DATA",
           (if d = TX then "TX" else "RX") ++ "D", "D"]]) := by
  simp [handle_byte, tail_checks, prependAnn, h3, hd, hps, PACKETSIZE_MIN,
        BufPos.HEADER, BufPos.DATA_SIZE, BufPos.DATA_TYPE, BufPos.DATA_START,
        dequeAppend_eq_append _ _ hlen, putg, islice]

theorem handle_byte_pos4_mid (s : DecoderState) (ss es : Int) (b : Nat) (d : Bool) (ps : Nat)
    (h3 : s.buf_pos = 3) (hd : s.rxtx = d) (hps : s.packet_size = some ps) (hge : 6 ≤ ps)
    (hlen : s.accum_bytes.length < PACKETSIZE_MAX) :
    handle_byte s ss es b d =
      some ({ s with buf_pos := 4, accum_bytes := s.accum_bytes ++ [b],
                     checksum := s.checksum ^^^ b, data_ss := some ss }, []) := by
  have hc1 : ¬ (PACKETSIZE_MIN < ps ∧ (4 : Nat) = ps - 1) := by
    simp only [PACKETSIZE_MIN]; omega
  have hc2 : (4 : Nat) ≠ ps := by omega
  simp [handle_byte, tail_checks, prependAnn, h3, hd, hps, hc1, hc2,
        BufPos.HEADER, BufPos.DATA_SIZE, BufPos.DATA_TYPE, BufPos.DATA_START,
        dequeAppend_eq_append _ _ hlen, putg]

theorem handle_byte_mid (s : DecoderState) (ss es : Int) (b : Nat) (d : Bool) (k ps : Nat)
    (hk : s.buf_pos = k) (h4 : 4 ≤ k) (hd : s.rxtx = d)
    (hps : s.packet_size = some ps) (hlt : k + 3 ≤ ps)
    (hlen : s.accum_bytes.length < PACKETSIZE_MAX) :
    handle_byte s ss es b d =
      some ({ s with buf_pos := k + 1, accum_bytes := s.accum_bytes ++ [b],
                     checksum := s.checksum ^^^ b }, []) := by
  have hp0 : 0 < k := by omega
  have hn1 : ¬ (k + 1 < BufPos.HEADER) := by simp only [BufPos.HEADER]; omega
  have hn2 : k + 1 ≠ BufPos.DATA_SIZE := by simp only [BufPos.DATA_SIZE]; omega
  have hn3 : k + 1 ≠ BufPos.DATA_TYPE := by simp only [BufPos.DATA_TYPE]; omega
  have hn4 : k + 1 ≠ BufPos.DATA_START := by simp only [BufPos.DATA_START]; omega
  have hc1 : ¬ (PACKETSIZE_MIN < ps ∧ k + 1 = ps - 1) := by
    simp only [PACKETSIZE_MIN]; omega
  have hc2 : k + 1 ≠ ps := by omega
  simp [handle_byte, tail_checks, prependAnn, hk, hp0, hd, hps,
        hn1, hn2, hn3, hn4, hc1, hc2, dequeAppend_eq_append _ _ hlen, putg]

theorem handle_byte_data (s : DecoderState) (ss es : Int) (b : Nat) (d : Bool) (k ps : Nat)
    (dss : Int) (hk : s.buf_pos = k) (h4 : 4 ≤ k) (hd : s.rxtx = d)
    (hps : s.packet_size = some ps) (heq : k + 2 = ps) (hdss : s.data_ss = some dss)
    (hlen : s.accum_bytes.length < PACKETSIZE_MAX) :
    handle_byte s ss es b d =
      some ({ s with buf_pos := k + 1, accum_bytes := s.accum_bytes ++ [b],
                     checksum := s.checksum ^^^ b },
        [putg s dss es (if d = TX then Ann.DATA_TX else Ann.DATA_RX)
          [(if d = TX then "TX" else "RX") ++ " DATA: " ++
             bytes_to_hex (islice (s.accum_bytes ++ [b]) 3 (ps - 1)),
           (if d = TX then "TX" else "RX") ++ "DATA",
           (if d = TX then "TX" else "RX") ++ "D", "D"]]) := by
  have hp0 : 0 < k := by omega
  have hn1 : ¬ (k + 1 < BufPos.HEADER) := by simp only [BufPos.HEADER]; omega
  have hn1a : ¬ (ps - 1 < BufPos.HEADER) := by simp only [BufPos.HEADER]; omega
  have hn2 : k + 1 ≠ BufPos.DATA_SIZE := by simp only [BufPos.DATA_SIZE]; omega
  have hn2a : ps - 1 ≠ BufPos.DATA_SIZE := by simp only [BufPos.DATA_SIZE]; omega
  have hn3 : k + 1 ≠ BufPos.DATA_TYPE := by simp only [BufPos.DATA_TYPE]; omega
  have hn3a : ps - 1 ≠ BufPos.DATA_TYPE := by simp only [BufPos.DATA_TYPE]; omega
  have hn4 : k + 1 ≠ BufPos.DATA_START := by simp only [BufPos.DATA_START]; omega
  have hn4a : ps - 1 ≠ BufPos.DATA_START := by simp only [BufPos.DATA_START]; omega
  have hn1b : ¬ ps < 2 := by omega
  have hn2b : ps ≠ 3 := by omega
  have hn3b : ps ≠ 4 := by omega
  have hn4b : ps ≠ 5 := by omega
  have hc1a : PACKETSIZE_MIN < ps := by simp only [PACKETSIZE_MIN]; omega
  have hc1b : k + 1 = ps - 1 := by omega
  simp [handle_byte, tail_checks, prependAnn, hk, hp0, hd, hps, hdss,
        hn1, hn1a, hn1b, hn2, hn2a, hn2b, hn3, hn3a, hn3b, hn4, hn4a, hn4b, hc1a, hc1b,
        dequeAppend_eq_append _ _ hlen, putg, BufPos.DATA_START]

theorem handle_byte_cs (s : DecoderState) (ss es : Int) (b : Nat) (d : Bool) (k ps : Nat)
    (pss : Int) (hk : s.buf_pos = k) (h4 : 4 ≤ k) (hd : s.rxtx = d)
    (hps : s.packet_size = some ps) (heq : k + 1 = ps) (hpss : s.packet_ss = some pss)
    (hlen : s.accum_bytes.length < PACKETSIZE_MAX) :
    handle_byte s ss es b d =
      some (reset s,
        putg s ss es Ann.CHECKSUM ["CS: 0x" ++ byte_to_hex b, "CS"] ::
        (if s.checksum ^^^ b = 0 then
          [putg s pss es (if d = TX then Ann.PACKET_TX else Ann.PACKET_RX)
            [(if d = TX then "TX" else "RX") ++ " PACKET: " ++
               bytes_to_hex (s.accum_bytes ++ [b]),
             (if d = TX then "TX" else "RX") ++ " PACKET",
             (if d = TX then "TX" else "RX") ++ "P"]]
         else [])) := by
  have hp0 : 0 < k := by omega
  have hn1 : ¬ (k + 1 < BufPos.HEADER) := by simp only [BufPos.HEADER]; omega
  have hn1a : ¬ (ps < BufPos.HEADER) := by simp only [BufPos.HEADER]; omega
  have hn2 : k + 1 ≠ BufPos.DATA_SIZE := by simp only [BufPos.DATA_SIZE]; omega
  have hn2a : ps ≠ BufPos.DATA_SIZE := by simp only [BufPos.DATA_SIZE]; omega
  have hn3 : k + 1 ≠ BufPos.DATA_TYPE := by simp only [BufPos.DATA_TYPE]; omega
  have hn3a : ps ≠ BufPos.DATA_TYPE := by simp only [BufPos.DATA_TYPE]; omega
  have hn4 : k + 1 ≠ BufPos.DATA_START := by simp only [BufPos.DATA_START]; omega
  have hn4a : ps ≠ BufPos.DATA_START := by simp only [BufPos.DATA_START]; omega
  have hc1 : ¬ (PACKETSIZE_MIN < ps ∧ k + 1 = ps - 1) := by
    simp only [PACKETSIZE_MIN]; omega
  have hc1a : ¬ (PACKETSIZE_MIN < ps ∧ ps = ps - 1) := by
    simp only [PACKETSIZE_MIN]; omega
  by_cases hchk : s.checksum ^^^ b = 0 <;>
    simp [handle_byte, tail_checks, prependAnn, hk, hp0, hd, hps, hpss, hchk,
          hn1, hn1a, hn2, hn2a, hn3, hn3a, hn4, hn4a, hc1, hc1a, heq,
          dequeAppend_eq_append _ _ hlen, putg, reset]

theorem runBytes_cons (s : DecoderState) (e : ByteEvent) (rest : List ByteEvent)
    (s' : DecoderState) (evs : List OutAnn) (s'' : DecoderState) (evs' : List OutAnn)
    (h1 : handle_byte s e.ss e.es e.value e.rxtx = some (s', evs))
    (h2 : runBytes s' rest = some (s'', evs')) :
    runBytes s (e :: rest) = some (s'', evs ++ evs') := by
  simp [runBytes, h1, h2]

theorem runBytes_append (l1 : List ByteEvent) :
    ∀ (s : DecoderState) (l2 : List ByteEvent) (s1 : DecoderState) (v1 : List OutAnn)
      (s2 : DecoderState) (v2 : List OutAnn),
      runBytes s l1 = some (s1, v1) → runBytes s1 l2 = some (s2, v2) →
      runBytes s (l1 ++ l2) = some (s2, v1 ++ v2) := by
  induction l1 with
  | nil =>
    intro s l2 s1 v1 s2 v2 h1 h2
    simp only [runBytes, Option.some.injEq, Prod.mk.injEq] at h1
    obtain ⟨rfl, rfl⟩ := h1
    simpa using h2
  | cons e rest ih =>
    intro s l2 s1 v1 s2 v2 h1 h2
    rw [runBytes] at h1
    split at h1
    · exact absurd h1 (by simp)
    · rename_i sm evm heq
      split at h1
      · exact absurd h1 (by simp)
      · rename_i sr evr hrun
        simp only [Option.some.injEq, Prod.mk.injEq] at h1
        obtain ⟨rfl, rfl⟩ := h1
        rw [List.cons_append,
            runBytes_cons s e (rest ++ l2) sm evm s2 (evr ++ v2) heq
              (ih sm l2 sr evr s2 v2 hrun h2)]
        simp

theorem runBytes_idle (s : DecoderState) (events : List ByteEvent)
    (h0 : s.buf_pos = 0)
    (hno : ∀ e ∈ events, e.value ≠ s.header e.rxtx) :
    runBytes s events = some (s, []) := by
  induction events with
  | nil => rfl
  | cons e rest ih =>
    have h1 := handle_byte_idle_nohdr s e.ss e.es e.value e.rxtx h0
      (hno e (List.mem_cons_self _ _))
    have h2 := ih (fun e' he' => hno e' (List.mem_cons_of_mem _ he'))
    simpa using runBytes_cons s e rest s [] s [] h1 h2

theorem runBytes_payload (d : Bool) (dss : Int) :
    ∀ (pes : List ByteEvent) (s : DecoderState) (pl : ByteEvent),
      4 ≤ s.buf_pos → s.rxtx = d →
      s.packet_size = some (s.buf_pos + pes.length + 1) →
      s.data_ss = some dss → s.print_sec = false →
      s.accum_bytes.length = s.buf_pos →
      1 ≤ pes.length → s.buf_pos + pes.length + 1 ≤ PACKETSIZE_MAX →
      (∀ p ∈ pes, p.rxtx = d) → pes.getLast? = some pl →
      runBytes s pes = some
        ({ s with buf_pos := s.buf_pos + pes.length,
                  accum_bytes := s.accum_bytes ++ pes.map ByteEvent.value,
                  checksum :=
                    List.foldl (fun a b => a ^^^ b) s.checksum (pes.map ByteEvent.value) },
         [⟨dss, pl.es, if d = TX then Ann.DATA_TX else Ann.DATA_RX,
           [(if d = TX then "TX" else "RX") ++ " DATA: " ++
              bytes_to_hex (islice (s.accum_bytes ++ pes.map ByteEvent.value) 3
                (s.buf_pos + pes.length)),
            (if d = TX then "TX" else "RX") ++ "DATA",
            (if d = TX then "TX" else "RX") ++ "D", "D"]⟩]) := by
  intro pes
  induction pes with
  | nil =>
    intro s pl _ _ _ _ _ _ hlen1 _ _ _
    simp at hlen1
  | cons p rest ih =>
    intro s pl h4 hd hps hdss hsec hacc hlen1 hmax hdir hlast
    have hlen : s.accum_bytes.length < PACKETSIZE_MAX := by
      simp only [PACKETSIZE_MAX] at hmax ⊢
      simp only [List.length_cons] at hmax
      omega
    have hpd : p.rxtx = d := hdir p (List.mem_cons_self _ _)
    cases rest with
    | nil =>
      have hpl : p = pl := by
        simp only [List.getLast?_singleton, Option.some.injEq] at hlast
        exact hlast
      subst hpl
      have heqX : s.buf_pos + 2 = s.buf_pos + (p :: ([] : List ByteEvent)).length + 1 := by
        simp
      have hstep := handle_byte_data s p.ss p.es p.value d s.buf_pos
        (s.buf_pos + (p :: ([] : List ByteEvent)).length + 1) dss rfl h4 hd hps heqX hdss hlen
      rw [← hpd] at hstep
      have hcons := runBytes_cons s p [] _ _ _ _ hstep rfl
      rw [hcons]
      simp [putg, hsec, hpd]
    | cons q rest' =>
      have hlt : s.buf_pos + 3 ≤ s.buf_pos + (p :: q :: rest').length + 1 := by
        simp only [List.length_cons]; omega
      have hstep := handle_byte_mid s p.ss p.es p.value d s.buf_pos
        (s.buf_pos + (p :: q :: rest').length + 1) rfl h4 hd hps hlt hlen
      rw [← hpd] at hstep
      have hihrun := ih
        ({ s with buf_pos := s.buf_pos + 1,
                  accum_bytes := s.accum_bytes ++ [p.value],
                  checksum := s.checksum ^^^ p.value }) pl
        (by show 4 ≤ s.buf_pos + 1; omega)
        (by show s.rxtx = d; exact hd)
        (by show s.packet_size = some (s.buf_pos + 1 + (q :: rest').length + 1)
            rw [hps]; congr 1; simp only [List.length_cons]; omega)
        (by show s.data_ss = some dss; exact hdss)
        (by show s.print_sec = false; exact hsec)
        (by show (s.accum_bytes ++ [p.value]).length = s.buf_pos + 1; simp [hacc])
        (by simp)
        (by show s.buf_pos + 1 + (q :: rest').length + 1 ≤ PACKETSIZE_MAX
            simp only [List.length_cons] at hmax ⊢; omega)
        (fun p' hp' => hdir p' (List.mem_cons_of_mem _ hp'))
        (by rw [← List.getLast?_cons_cons]; exact hlast)
      have hbp : s.buf_pos + (p :: q :: rest').length = s.buf_pos + 1 + (q :: rest').length := by
        simp only [List.length_cons]; omega
      rw [List.map_cons,
          List.append_cons s.accum_bytes p.value ((q :: rest').map ByteEvent.value), hbp]
      exact runBytes_cons s p (q :: rest') _ [] _ _ hstep hihrun

theorem run_packet (s : DecoderState) (d : Bool) (sz t c : Nat) (payload : List Nat)
    (e1 e2 e3 ec : ByteEvent) (pes : List ByteEvent)
    (hidle : s.buf_pos = 0) (hacc : s.accum_bytes = []) (hsec : s.print_sec = false)
    (hsz : sz ≤ 60) (hlen : payload.length = sz)
    (h1v : e1.value = s.header d) (h1d : e1.rxtx = d)
    (h2v : e2.value = sz) (h2d : e2.rxtx = d)
    (h3v : e3.value = t) (h3d : e3.rxtx = d)
    (hpv : pes.map ByteEvent.value = payload) (hpdir : ∀ p ∈ pes, p.rxtx = d)
    (hcv : ec.value = c) (hcd : ec.rxtx = d) :
    runBytes s (e1 :: e2 :: e3 :: (pes ++ [ec])) =
      some (reset s,
        [⟨e1.ss, e1.es, Ann.HEADER, ["HEAD: 0x" ++ byte_to_hex (s.header d), "HEAD", "H"]⟩,
         ⟨e2.ss, e2.es, Ann.DATASIZE, ["DS: 0x" ++ byte_to_hex sz, "DS"]⟩] ++
        (if d = TX then
           [⟨e3.ss, e3.es, Ann.COMMAND, ["CMD: 0x" ++ byte_to_hex t, "CMD"]⟩]
         else
           [⟨e3.ss, e3.es, Ann.ANSWER, ["ANS: 0x" ++ byte_to_hex t, "ANS"]⟩]) ++
        (if payload = [] then []
         else
           [⟨(pes.headD ec).ss, (pes.getLastD ec).es,
             if d = TX then Ann.DATA_TX else Ann.DATA_RX,
             [(if d = TX then "TX" else "RX") ++ " DATA: " ++ bytes_to_hex payload,
              (if d = TX then "TX" else "RX") ++ "DATA",
              (if d = TX then "TX" else "RX") ++ "D", "D"]⟩]) ++
        [⟨ec.ss, ec.es, Ann.CHECKSUM, ["CS: 0x" ++ byte_to_hex c, "CS"]⟩] ++
        (if xorAll (s.header d :: sz :: t :: (payload ++ [c])) = 0 then
           [⟨e1.ss, ec.es, if d = TX then Ann.PACKET_TX else Ann.PACKET_RX,
             [(if d = TX then "TX" else "RX") ++ " PACKET: " ++
                bytes_to_hex (s.header d :: sz :: t :: (payload ++ [c])),
              (if d = TX then "TX" else "RX") ++ " PACKET",
              (if d = TX then "TX" else "RX") ++ "P"]⟩]
         else [])) := by
  subst h2v h3v hcv hpv
  have hstep1 : handle_byte s e1.ss e1.es e1.value e1.rxtx =
      some ({ s with buf_pos := 1, rxtx := d, accum_bytes := [e1.value],
                     packet_ss := some e1.ss, checksum := e1.value },
        [putg s e1.ss e1.es Ann.HEADER ["HEAD: 0x" ++ byte_to_hex e1.value, "HEAD", "H"]]) := by
    rw [h1d, handle_byte_idle_hdr s e1.ss e1.es e1.value d hidle h1v, hacc]
    rfl
  have hstep2 : handle_byte
      ({ s with buf_pos := 1, rxtx := d, accum_bytes := [e1.value],
                packet_ss := some e1.ss, checksum := e1.value })
      e2.ss e2.es e2.value e2.rxtx =
      some ({ s with buf_pos := 2, rxtx := d, accum_bytes := [e1.value, e2.value],
                     packet_ss := some e1.ss, checksum := e1.value ^^^ e2.value,
                     packet_size := some (PACKETSIZE_MIN + e2.value) },
        [putg s e2.ss e2.es Ann.DATASIZE ["DS: 0x" ++ byte_to_hex e2.value, "DS"]]) := by
    rw [h2d, handle_byte_size_ok _ e2.ss e2.es e2.value d rfl rfl hsz
      (by simp [PACKETSIZE_MAX])]
    rfl
  have hstep3 : handle_byte
      ({ s with buf_pos := 2, rxtx := d, accum_bytes := [e1.value, e2.value],
                packet_ss := some e1.ss, checksum := e1.value ^^^ e2.value,
                packet_size := some (PACKETSIZE_MIN + e2.value) })
      e3.ss e3.es e3.value e3.rxtx =
      some ({ s with buf_pos := 3, rxtx := d,
                     accum_bytes := [e1.value, e2.value, e3.value],
                     packet_ss := some e1.ss,
                     checksum := e1.value ^^^ e2.value ^^^ e3.value,
                     packet_size := some (PACKETSIZE_MIN + e2.value) },
        [if d = TX then putg s e3.ss e3.es Ann.COMMAND ["CMD: 0x" ++ byte_to_hex e3.value, "CMD"]
         else putg s e3.ss e3.es Ann.ANSWER ["ANS: 0x" ++ byte_to_hex e3.value, "ANS"]]) := by
    rw [h3d, handle_byte_type _ e3.ss e3.es e3.value d (PACKETSIZE_MIN + e2.value) rfl rfl rfl
      (by simp [PACKETSIZE_MIN]) (by simp [PACKETSIZE_MAX])]
    rfl
  cases pes with
  | nil =>
    have h20 : e2.value = 0 := by simpa using hlen.symm
    have hstep4 : handle_byte
        ({ s with buf_pos := 3, rxtx := d,
                  accum_bytes := [e1.value, e2.value, e3.value],
                  packet_ss := some e1.ss,
                  checksum := e1.value ^^^ e2.value ^^^ e3.value,
                  packet_size := some (PACKETSIZE_MIN + e2.value) })
        ec.ss ec.es ec.value ec.rxtx =
        some (reset s,
          putg s ec.ss ec.es Ann.CHECKSUM ["CS: 0x" ++ byte_to_hex ec.value, "CS"] ::
          (if (e1.value ^^^ e2.value ^^^ e3.value) ^^^ ec.value = 0 then
            [putg s e1.ss ec.es (if d = TX then Ann.PACKET_TX else Ann.PACKET_RX)
              [(if d = TX then "TX" else "RX") ++ " PACKET: " ++
                 bytes_to_hex [e1.value, e2.value, e3.value, ec.value],
               (if d = TX then "TX" else "RX") ++ " PACKET",
               (if d = TX then "TX" else "RX") ++ "P"]]
           else [])) := by
      rw [hcd, handle_byte_pos4_cs _ ec.ss ec.es ec.value d e1.ss rfl rfl
        (by simp [PACKETSIZE_MIN, h20]) rfl (by simp [PACKETSIZE_MAX])]
      rfl
    refine (runBytes_cons s e1 _ _ _ _ _ hstep1
         (runBytes_cons _ e2 _ _ _ _ _ hstep2
           (runBytes_cons _ e3 _ _ _ _ _ hstep3
             (runBytes_cons _ ec [] _ _ _ _ hstep4 rfl)))).trans ?_
    cases d <;> simp [putg, hsec, h1v, xorAll, Nat.zero_xor, h20, TX]
  | cons p1 rest =>
    cases rest with
    | nil =>
      have h21 : e2.value = 1 := by simpa using hlen.symm
      have hp1d : p1.rxtx = d := hpdir p1 (List.mem_cons_self _ _)
      have hstep4 : handle_byte
          ({ s with buf_pos := 3, rxtx := d,
                    accum_bytes := [e1.value, e2.value, e3.value],
                    packet_ss := some e1.ss,
                    checksum := e1.value ^^^ e2.value ^^^ e3.value,
                    packet_size := some (PACKETSIZE_MIN + e2.value) })
          p1.ss p1.es p1.value p1.rxtx =
          some ({ s with buf_pos := 4, rxtx := d,
                         accum_bytes := [e1.value, e2.value, e3.value, p1.value],
                         packet_ss := some e1.ss,
                         checksum := (e1.value ^^^ e2.value ^^^ e3.value) ^^^ p1.value,
                         packet_size := some (PACKETSIZE_MIN + e2.value),
                         data_ss := some p1.ss },
            [putg s p1.ss p1.es (if d = TX then Ann.DATA_TX else Ann.DATA_RX)
              [(if d = TX then "TX" else "RX") ++ " DATA: " ++ bytes_to_hex [p1.value],
               (if d = TX then "TX" else "RX") ++ "DATA",
               (if d = TX then "TX" else "RX") ++ "D", "D"]]) := by
        rw [hp1d, handle_byte_pos4_data _ p1.ss p1.es p1.value d rfl rfl
          (by simp [PACKETSIZE_MIN, h21]) (by simp [PACKETSIZE_MAX])]
        rfl
      have hstep5 : handle_byte
          ({ s with buf_pos := 4, rxtx := d,
                    accum_bytes := [e1.value, e2.value, e3.value, p1.value],
                    packet_ss := some e1.ss,
                    checksum := (e1.value ^^^ e2.value ^^^ e3.value) ^^^ p1.value,
                    packet_size := some (PACKETSIZE_MIN + e2.value),
                    data_ss := some p1.ss })
          ec.ss ec.es ec.value ec.rxtx =
          some (reset s,
            putg s ec.ss ec.es Ann.CHECKSUM ["CS: 0x" ++ byte_to_hex ec.value, "CS"] ::
            (if ((e1.value ^^^ e2.value ^^^ e3.value) ^^^ p1.value) ^^^ ec.value = 0 then
              [putg s e1.ss ec.es (if d = TX then Ann.PACKET_TX else Ann.PACKET_RX)
                [(if d = TX then "TX" else "RX") ++ " PACKET: " ++
                   bytes_to_hex [e1.value, e2.value, e3.value, p1.value, ec.value],
                 (if d = TX then "TX" else "RX") ++ " PACKET",
                 (if d = TX then "TX" else "RX") ++ "P"]]
             else [])) := by
        rw [hcd, handle_byte_cs _ ec.ss ec.es ec.value d 4 (PACKETSIZE_MIN + e2.value) e1.ss
          rfl (by omega) rfl rfl (by simp [PACKETSIZE_MIN, h21]) rfl
          (by simp [PACKETSIZE_MAX])]
        rfl
      refine (runBytes_cons s e1 _ _ _ _ _ hstep1
           (runBytes_cons _ e2 _ _ _ _ _ hstep2
             (runBytes_cons _ e3 _ _ _ _ _ hstep3
               (runBytes_cons _ p1 _ _ _ _ _ hstep4
                 (runBytes_cons _ ec [] _ _ _ _ hstep5 rfl))))).trans ?_
      cases d <;> simp [putg, hsec, h1v, xorAll, Nat.zero_xor, h21, TX]
    | cons p2 rest' =>
      have h22 : e2.value = rest'.length + 2 := by
        simpa using hlen.symm
      have hp1d : p1.rxtx = d := hpdir p1 (List.mem_cons_self _ _)
      have hstep4 : handle_byte
          ({ s with buf_pos := 3, rxtx := d,
                    accum_bytes := [e1.value, e2.value, e3.value],
                    packet_ss := some e1.ss,
                    checksum := e1.value ^^^ e2.value ^^^ e3.value,
                    packet_size := some (PACKETSIZE_MIN + e2.value) })
          p1.ss p1.es p1.value p1.rxtx =
          some ({ s with buf_pos := 4, rxtx := d,
                         accum_bytes := [e1.value, e2.value, e3.value, p1.value],
                         packet_ss := some e1.ss,
                         checksum := (e1.value ^^^ e2.value ^^^ e3.value) ^^^ p1.value,
                         packet_size := some (PACKETSIZE_MIN + e2.value),
                         data_ss := some p1.ss }, []) := by
        rw [hp1d, handle_byte_pos4_mid _ p1.ss p1.es p1.value d (PACKETSIZE_MIN + e2.value)
          rfl rfl rfl (by simp [PACKETSIZE_MIN]; omega) (by simp [PACKETSIZE_MAX])]
        rfl
      obtain ⟨pl, hpl⟩ : ∃ pl, (p2 :: rest').getLast? = some pl := by
        cases hgl : (p2 :: rest').getLast? with
        | none => simp [List.getLast?_eq_none_iff] at hgl
        | some x => exact ⟨x, rfl⟩
      have hpayload := runBytes_payload d p1.ss (p2 :: rest')
        ({ s with buf_pos := 4, rxtx := d,
                  accum_bytes := [e1.value, e2.value, e3.value, p1.value],
                  packet_ss := some e1.ss,
                  checksum := (e1.value ^^^ e2.value ^^^ e3.value) ^^^ p1.value,
                  packet_size := some (PACKETSIZE_MIN + e2.value),
                  data_ss := some p1.ss }) pl
        (by show 4 ≤ 4; omega)
        rfl
        (by show some (PACKETSIZE_MIN + e2.value) = some (4 + (p2 :: rest').length + 1)
            congr 1; simp only [PACKETSIZE_MIN, List.length_cons]; omega)
        rfl
        (by show s.print_sec = false; exact hsec)
        (by simp)
        (by simp)
        (by show 4 + (p2 :: rest').length + 1 ≤ PACKETSIZE_MAX
            simp only [PACKETSIZE_MAX, List.length_cons]; omega)
        (fun p' hp' => hpdir p' (List.mem_cons_of_mem _ hp'))
        hpl
      have hstep7 : handle_byte
          ({ s with buf_pos := 4 + (p2 :: rest').length, rxtx := d,
                    accum_bytes := [e1.value, e2.value, e3.value, p1.value] ++
                      (p2 :: rest').map ByteEvent.value,
                    packet_ss := some e1.ss,
                    checksum := List.foldl (fun a b => a ^^^ b)
                      ((e1.value ^^^ e2.value ^^^ e3.value) ^^^ p1.value)
                      ((p2 :: rest').map ByteEvent.value),
                    packet_size := some (PACKETSIZE_MIN + e2.value),
                    data_ss := some p1.ss })
          ec.ss ec.es ec.value ec.rxtx =
          some (reset s,
            putg s ec.ss ec.es Ann.CHECKSUM ["CS: 0x" ++ byte_to_hex ec.value, "CS"] ::
            (if List.foldl (fun a b => a ^^^ b)
                  ((e1.value ^^^ e2.value ^^^ e3.value) ^^^ p1.value)
                  ((p2 :: rest').map ByteEvent.value) ^^^ ec.value = 0 then
              [putg s e1.ss ec.es (if d = TX then Ann.PACKET_TX else Ann.PACKET_RX)
                [(if d = TX then "TX" else "RX") ++ " PACKET: " ++
                   bytes_to_hex (([e1.value, e2.value, e3.value, p1.value] ++
                     (p2 :: rest').map ByteEvent.value) ++ [ec.value]),
                 (if d = TX then "TX" else "RX") ++ " PACKET",
                 (if d = TX then "TX" else "RX") ++ "P"]]
             else [])) := by
        rw [hcd, handle_byte_cs _ ec.ss ec.es ec.value d (4 + (p2 :: rest').length)
          (PACKETSIZE_MIN + e2.value) e1.ss rfl (by omega) rfl rfl
          (by simp only [PACKETSIZE_MIN, List.length_cons]; omega) rfl
          (by simp only [List.length_append, List.length_map, List.length_cons,
                PACKETSIZE_MAX]
              simp
              omega)]
        rfl
      have htail := runBytes_append (p2 :: rest') _ [ec] _ _ _ _ hpayload
        (runBytes_cons _ ec [] _ _ _ _ hstep7 rfl)
      refine (runBytes_cons s e1 _ _ _ _ _ hstep1
           (runBytes_cons _ e2 _ _ _ _ _ hstep2
             (runBytes_cons _ e3 _ _ _ _ _ hstep3
               (runBytes_cons _ p1 _ _ _ _ _ hstep4 htail)))).trans ?_
      have hslice : islice
          (s.header d :: e2.value :: e3.value :: p1.value :: p2.value ::
            rest'.map ByteEvent.value)
          3 (4 + (rest'.length + 1)) =
          p1.value :: p2.value :: rest'.map ByteEvent.value := by
        unfold islice
        rw [List.take_of_length_le (by simp <;> omega)]
        rfl
      cases d <;> simp [putg, hsec, h1v, xorAll, Nat.zero_xor, hpl, hslice,
        List.foldl_append, TX]

theorem xorAll_append (xs : List Nat) (b : Nat) :
    xorAll (xs ++ [b]) = xorAll xs ^^^ b := by
  simp [xorAll, List.foldl_append]

theorem Inv_reset (s : DecoderState) : Inv (reset s) := by
  simp [Inv, reset, xorAll]

theorem Inv_init (hrx htx : Nat) (psec : Bool) : Inv (initState hrx htx psec) := by
  simp [Inv, initState, reset, xorAll]

theorem handle_byte_inv_idle (s : DecoderState) (ss es : Int) (b : Nat) (d : Bool)
    (h0 : s.buf_pos = 0) (hInv : Inv s) :
    ∃ s' evs, handle_byte s ss es b d = some (s', evs) ∧ Inv s' := by
  obtain ⟨hlen, hchk, hid, hpss, hps, hdss⟩ := hInv
  have hacc : s.accum_bytes = [] := by
    rw [h0] at hlen; exact List.length_eq_zero.mp hlen
  by_cases hh : b = s.header d
  · refine ⟨_, _, handle_byte_idle_hdr s ss es b d h0 hh, ?_⟩
    simp [Inv, hacc, dequeAppend, xorAll, PACKETSIZE_MAX]
  · exact ⟨s, [], handle_byte_idle_nohdr s ss es b d h0 hh,
      ⟨hlen, hchk, hid, hpss, hps, hdss⟩⟩

theorem handle_byte_inv (s : DecoderState) (ss es : Int) (b : Nat) (d : Bool)
    (hInv : Inv s) :
    ∃ s' evs, handle_byte s ss es b d = some (s', evs) ∧ Inv s' := by
  by_cases h0 : s.buf_pos = 0
  · exact handle_byte_inv_idle s ss es b d h0 hInv
  obtain ⟨hlen, hchk, hid, hpss, hps, hdss⟩ := hInv
  by_cases hdir : s.rxtx = d
  case neg =>
    rw [handle_byte_mismatch s ss es b d (Nat.pos_of_ne_zero h0) hdir]
    exact handle_byte_inv_idle (reset s) ss es b d rfl (Inv_reset s)
  case pos =>
    have hlt64 : s.accum_bytes.length < PACKETSIZE_MAX := by
      rcases Nat.lt_or_ge s.buf_pos 2 with h2 | h2
      · rw [hlen]; simp only [PACKETSIZE_MAX]; omega
      · obtain ⟨ps, _, _, hle, hlt⟩ := hps h2
        rw [hlen]; simp only [PACKETSIZE_MAX] at *; omega
    by_cases hk1 : s.buf_pos = 1
    · by_cases hb60 : b ≤ 60
      · refine ⟨_, _, handle_byte_size_ok s ss es b d hk1 hdir hb60 hlt64, ?_⟩
        refine ⟨by simp [hlen, hk1], by simp [hchk, xorAll_append], by simp, ?_, ?_, ?_⟩
        · intro _; exact hpss (by omega)
        · intro _
          exact ⟨PACKETSIZE_MIN + b, rfl, by simp [PACKETSIZE_MIN],
            by simp only [PACKETSIZE_MIN]; omega, by simp only [PACKETSIZE_MIN]; omega⟩
        · intro h; simp at h
      · refine ⟨_, _, handle_byte_size_warn s ss es b d hk1 hdir (by omega), Inv_reset s⟩
    by_cases hk2 : s.buf_pos = 2
    · obtain ⟨ps, hpseq, hps4, hps64, hpslt⟩ := hps (by omega)
      refine ⟨_, _, handle_byte_type s ss es b d ps hk2 hdir hpseq hps4 hlt64, ?_⟩
      refine ⟨by simp [hlen, hk2], by simp [hchk, xorAll_append], by simp, ?_, ?_, ?_⟩
      · intro _; exact hpss (by omega)
      · intro _; exact ⟨ps, hpseq, hps4, hps64, by show (3 : Nat) < ps; omega⟩
      · intro h; simp at h
    by_cases hk3 : s.buf_pos = 3
    · obtain ⟨ps, hpseq, hps4, hps64, hpslt⟩ := hps (by omega)
      by_cases hps4eq : ps = 4
      · obtain ⟨pss, hpss'⟩ := Option.isSome_iff_exists.mp (hpss (by omega))
        subst hps4eq
        exact ⟨_, _, handle_byte_pos4_cs s ss es b d pss hk3 hdir hpseq hpss' hlt64,
          Inv_reset s⟩
      by_cases hps5eq : ps = 5
      · subst hps5eq
        refine ⟨_, _, handle_byte_pos4_data s ss es b d hk3 hdir hpseq hlt64, ?_⟩
        refine ⟨by simp [hlen, hk3], by simp [hchk, xorAll_append], by simp, ?_, ?_, ?_⟩
        · intro _; exact hpss (by omega)
        · intro _; exact ⟨5, hpseq, by omega, by omega, by show (4 : Nat) < 5; omega⟩
        · intro _; simp
      · refine ⟨_, _, handle_byte_pos4_mid s ss es b d ps hk3 hdir hpseq (by omega) hlt64, ?_⟩
        refine ⟨by simp [hlen, hk3], by simp [hchk, xorAll_append], by simp, ?_, ?_, ?_⟩
        · intro _; exact hpss (by omega)
        · intro _; exact ⟨ps, hpseq, hps4, hps64, by show (4 : Nat) < ps; omega⟩
        · intro _; simp
    · have hk4 : 4 ≤ s.buf_pos := by
        clear hpss hps hdss hid hchk hlen hlt64
        omega
      obtain ⟨ps, hpseq, hps4, hps64, hpslt⟩ := hps (by omega)
      by_cases hcseq : s.buf_pos + 1 = ps
      · obtain ⟨pss, hpss'⟩ := Option.isSome_iff_exists.mp (hpss (by omega))
        exact ⟨_, _, handle_byte_cs s ss es b d s.buf_pos ps pss rfl hk4 hdir hpseq
          hcseq hpss' hlt64, Inv_reset s⟩
      by_cases hdataeq : s.buf_pos + 2 = ps
      · obtain ⟨dssv, hdss'⟩ := Option.isSome_iff_exists.mp (hdss hk4)
        refine ⟨_, _, handle_byte_data s ss es b d s.buf_pos ps dssv rfl hk4 hdir hpseq
          hdataeq hdss' hlt64, ?_⟩
        refine ⟨by simp [hlen], by simp [hchk, xorAll_append],
          by intro h; simp at h, ?_, ?_, ?_⟩
        · intro _; exact hpss (by omega)
        · intro _; exact ⟨ps, hpseq, hps4, hps64, by show s.buf_pos + 1 < ps; omega⟩
        · intro _; exact (Option.isSome_iff_exists.mpr ⟨dssv, hdss'⟩)
      · refine ⟨_, _, handle_byte_mid s ss es b d s.buf_pos ps rfl hk4 hdir hpseq
          (by omega) hlt64, ?_⟩
        refine ⟨by simp [hlen], by simp [hchk, xorAll_append],
          by intro h; simp at h, ?_, ?_, ?_⟩
        · intro _; exact hpss (by omega)
        · intro _; exact ⟨ps, hpseq, hps4, hps64, by show s.buf_pos + 1 < ps; omega⟩
        · intro _; exact hdss hk4

theorem reachable_inv (s : DecoderState) (h : Reachable s) : Inv s := by
  induction h with
  | init hrx htx psec => exact Inv_init hrx htx psec
  | step s0 ss es b d s' evs hr heq ih =>
    obtain ⟨s'', evs', heq', hinv⟩ := handle_byte_inv s0 ss es b d ih
    rw [heq] at heq'
    simp only [Option.some.injEq, Prod.mk.injEq] at heq'
    rw [← heq'.1] at hinv
    exact hinv
  | doReset s0 hr ih => exact Inv_reset s0

/-- C2: If a byte event whose direction differs from the locked direction
arrives while `position > 0`, the in-progress candidate is discarded with no
Warning event, and that same interrupting byte is evaluated fresh as a
possible header: if it equals the configured header for its own direction a
new candidate starts (with a Header field-event, and nothing else emitted),
otherwise the state is exactly the reset (idle) state with nothing emitted. -/
theorem spec_C2 (s : DecoderState) (ss es : Int) (b : Nat) (d : Bool)
    (hpos : 0 < s.buf_pos) (hd : s.rxtx ≠ d) :
    (b = s.header d →
      handle_byte s ss es b d =
        some ({ reset s with buf_pos := 1, rxtx := d, accum_bytes := [b],
                             packet_ss := some ss, checksum := b },
          [putg s ss es Ann.HEADER ["HEAD: 0x" ++ byte_to_hex b, "HEAD", "H"]])) ∧
    (b ≠ s.header d → handle_byte s ss es b d = some (reset s, [])) := by
  constructor
  · intro hh
    rw [handle_byte_mismatch s ss es b d hpos hd,
        handle_byte_idle_hdr (reset s) ss es b d rfl hh]
    rfl
  · intro hh
    rw [handle_byte_mismatch s ss es b d hpos hd,
        handle_byte_idle_nohdr (reset s) ss es b d rfl hh]

/-- C2 witness: a locked RX candidate interrupted by a TX event carrying the
TX header byte. -/
theorem spec_C2_witness :
    (217 = ({ checksum := 157, accum_bytes := [157], rxtx := RX, packet_size := none,
              packet_ss := some 0, packet_es := none, data_ss := none, buf_pos := 1,
              header_rx := 157, header_tx := 217,
              print_sec := false } : DecoderState).header TX →
      handle_byte { checksum := 157, accum_bytes := [157], rxtx := RX, packet_size := none,
                    packet_ss := some 0, packet_es := none, data_ss := none, buf_pos := 1,
                    header_rx := 157, header_tx := 217, print_sec := false } 2 3 217 TX =
        some ({ reset { checksum := 157, accum_bytes := [157], rxtx := RX, packet_size := none,
                        packet_ss := some 0, packet_es := none, data_ss := none, buf_pos := 1,
                        header_rx := 157, header_tx := 217, print_sec := false } with
                buf_pos := 1, rxtx := TX, accum_bytes := [217],
                packet_ss := some 2, checksum := 217 },
          [putg { checksum := 157, accum_bytes := [157], rxtx := RX, packet_size := none,
                  packet_ss := some 0, packet_es := none, data_ss := none, buf_pos := 1,
                  header_rx := 157, header_tx := 217, print_sec := false } 2 3 Ann.HEADER
            ["HEAD: 0x" ++ byte_to_hex 217, "HEAD", "H"]])) ∧
    (217 ≠ ({ checksum := 157, accum_bytes := [157], rxtx := RX, packet_size := none,
              packet_ss := some 0, packet_es := none, data_ss := none, buf_pos := 1,
              header_rx := 157, header_tx := 217,
              print_sec := false } : DecoderState).header TX →
      handle_byte { checksum := 157, accum_bytes := [157], rxtx := RX, packet_size := none,
                    packet_ss := some 0, packet_es := none, data_ss := none, buf_pos := 1,
                    header_rx := 157, header_tx := 217, print_sec := false } 2 3 217 TX =
        some (reset { checksum := 157, accum_bytes := [157], rxtx := RX, packet_size := none,
                      packet_ss := some 0, packet_es := none, data_ss := none, buf_pos := 1,
                      header_rx := 157, header_tx := 217, print_sec := false }, [])) :=
  spec_C2 _ 2 3 217 TX (by decide) (by decide)

/-- C3 counterexample: the claim says the interrupting byte is never
reconsidered as a header, i.e. processing it never leaves the idle state.
Concretely, after an RX header (`buf_pos = 1`) an interrupting TX event
carrying the TX header byte leaves the machine at `buf_pos = 1` (not idle),
with a second Header event emitted for it. -/
theorem spec_C3_cex :
    (runBytes (initState 157 217 false)
        [⟨0, 1, 157, RX⟩, ⟨2, 3, 217, TX⟩]).map
      (fun r => (r.1.buf_pos, r.2.length)) = some (1, 2) := by
  rfl

/-- C3 (amended): while `position > 0`, an event with a different direction
forces an immediate reset; the mismatched byte is not folded into the old
candidate (the resulting buffer holds at most that one byte); however the
byte IS reconsidered as a new header: processing it leaves the machine
out of idle exactly when the byte equals the configured header for its own
direction. -/
theorem spec_C3 (s : DecoderState) (ss es : Int) (b : Nat) (d : Bool)
    (hpos : 0 < s.buf_pos) (hd : s.rxtx ≠ d) :
    ∃ s' evs, handle_byte s ss es b d = some (s', evs) ∧
      s'.accum_bytes.length ≤ 1 ∧ (s'.buf_pos ≠ 0 ↔ b = s.header d) := by
  rw [handle_byte_mismatch s ss es b d hpos hd]
  by_cases hh : b = s.header d
  · rw [handle_byte_idle_hdr (reset s) ss es b d rfl hh]
    refine ⟨_, _, rfl, ?_, ?_⟩
    · simp [dequeAppend, reset, PACKETSIZE_MAX]
    · simp [hh]
  · rw [handle_byte_idle_nohdr (reset s) ss es b d rfl hh]
    refine ⟨_, _, rfl, ?_, ?_⟩
    · simp [reset]
    · simp [reset, hh]

/-- C3 witness: the amended statement at the same concrete interrupted state. -/
theorem spec_C3_witness :
    ∃ s' evs,
      handle_byte { checksum := 157, accum_bytes := [157], rxtx := RX, packet_size := none,
                    packet_ss := some 0, packet_es := none, data_ss := none, buf_pos := 1,
                    header_rx := 157, header_tx := 217, print_sec := false } 2 3 217 TX =
        some (s', evs) ∧
      s'.accum_bytes.length ≤ 1 ∧
      (s'.buf_pos ≠ 0 ↔ 217 =
        ({ checksum := 157, accum_bytes := [157], rxtx := RX, packet_size := none,
           packet_ss := some 0, packet_es := none, data_ss := none, buf_pos := 1,
           header_rx := 157, header_tx := 217,
           print_sec := false } : DecoderState).header TX) :=
  spec_C3 _ 2 3 217 TX (by decide) (by decide)

/-- C4: a size byte declaring `4 + S > 64` produces exactly one Warning
field-event (for that byte) after the Header event, resets to idle, and no
further field-events are emitted for any subsequent bytes that are not a
valid header for their direction. -/
theorem spec_C4 (s : DecoderState) (d : Bool) (b : Nat) (e1 e2 : ByteEvent)
    (rest : List ByteEvent)
    (hidle : s.buf_pos = 0) (hacc : s.accum_bytes = []) (hsec : s.print_sec = false)
    (h1v : e1.value = s.header d) (h1d : e1.rxtx = d)
    (h2v : e2.value = b) (h2d : e2.rxtx = d) (hb : 60 < b)
    (hrest : ∀ e ∈ rest, e.value ≠ s.header e.rxtx) :
    runBytes s (e1 :: e2 :: rest) =
      some (reset s,
        [⟨e1.ss, e1.es, Ann.HEADER, ["HEAD: 0x" ++ byte_to_hex (s.header d), "HEAD", "H"]⟩,
         ⟨e2.ss, e2.es, Ann.WARN, ["Wrong DS: 0x" ++ byte_to_hex b, "WDS"]⟩]) := by
  subst h2v
  have hstep1 : handle_byte s e1.ss e1.es e1.value e1.rxtx =
      some ({ s with buf_pos := 1, rxtx := d, accum_bytes := [e1.value],
                     packet_ss := some e1.ss, checksum := e1.value },
        [putg s e1.ss e1.es Ann.HEADER ["HEAD: 0x" ++ byte_to_hex e1.value, "HEAD", "H"]]) := by
    rw [h1d, handle_byte_idle_hdr s e1.ss e1.es e1.value d hidle h1v, hacc]
    rfl
  have hstep2 : handle_byte
      ({ s with buf_pos := 1, rxtx := d, accum_bytes := [e1.value],
                packet_ss := some e1.ss, checksum := e1.value })
      e2.ss e2.es e2.value e2.rxtx =
      some (reset s,
        [putg s e2.ss e2.es Ann.WARN ["Wrong DS: 0x" ++ byte_to_hex e2.value, "WDS"]]) := by
    rw [h2d, handle_byte_size_warn _ e2.ss e2.es e2.value d rfl rfl hb]
    rfl
  refine (runBytes_cons s e1 _ _ _ _ _ hstep1
    (runBytes_cons _ e2 rest _ _ _ _ hstep2
      (runBytes_idle _ rest rfl (fun e he => hrest e he)))).trans ?_
  simp [putg, hsec, h1v]

/-- C4 witness: RX header, then size byte `0x64` (declared size 104 > 64),
then one more non-header byte. -/
theorem spec_C4_witness :
    runBytes (initState 157 217 false)
        [⟨0, 1, 157, RX⟩, ⟨2, 3, 100, RX⟩, ⟨4, 5, 7, RX⟩] =
      some (reset (initState 157 217 false),
        [⟨0, 1, Ann.HEADER,
          ["HEAD: 0x" ++ byte_to_hex ((initState 157 217 false).header RX), "HEAD", "H"]⟩,
         ⟨2, 3, Ann.WARN, ["Wrong DS: 0x" ++ byte_to_hex 100, "WDS"]⟩]) :=
  spec_C4 (initState 157 217 false) RX 100 ⟨0, 1, 157, RX⟩ ⟨2, 3, 100, RX⟩
    [⟨4, 5, 7, RX⟩] rfl rfl rfl rfl rfl rfl rfl (by decide) (by decide)

/-- C7: if no event's value equals the configured header for that event's
direction, no field-events are emitted and the state — hence `position = 0`,
idle — is unchanged, after the whole sequence and after every prefix of it. -/
theorem spec_C7 (s : DecoderState) (events : List ByteEvent) (h0 : s.buf_pos = 0)
    (hno : ∀ e ∈ events, e.value ≠ s.header e.rxtx) :
    runBytes s events = some (s, []) ∧
    ∀ pre suf, events = pre ++ suf → runBytes s pre = some (s, []) := by
  refine ⟨runBytes_idle s events h0 hno, ?_⟩
  intro pre suf heq
  exact runBytes_idle s pre h0
    (fun e he => hno e (by rw [heq]; exact List.mem_append_left _ he))

/-- C7 witness: two non-header bytes (the second carries the TX header value
but arrives on the RX direction, so it is not a header for its direction). -/
theorem spec_C7_witness :
    (runBytes (initState 157 217 false) [⟨0, 1, 3, RX⟩, ⟨2, 3, 217, RX⟩] =
      some (initState 157 217 false, []) ∧
    ∀ pre suf, [(⟨0, 1, 3, RX⟩ : ByteEvent), ⟨2, 3, 217, RX⟩] = pre ++ suf →
      runBytes (initState 157 217 false) pre = some (initState 157 217 false, [])) :=
  spec_C7 (initState 157 217 false) [⟨0, 1, 3, RX⟩, ⟨2, 3, 217, RX⟩] rfl (by decide)

/-- C6: in every reachable state the spec's StreamState invariant holds — so
it is preserved by every `handle_byte` call and by `reset`: while not idle the
buffer length equals `position` and `checksum` is the XOR of exactly the
buffer; while idle the buffer is empty and `checksum` is zero. -/
theorem spec_C6 (s : DecoderState) (h : Reachable s) : StateInv s := by
  obtain ⟨hlen, hchk, hid, _, _, _⟩ := reachable_inv s h
  refine ⟨fun _ => ⟨hlen, hchk⟩, fun h0 => ?_⟩
  have hrs := hid h0
  exact ⟨congrArg DecoderState.accum_bytes hrs, congrArg DecoderState.checksum hrs⟩

/-- C6 witness: the invariant at the freshly started decoder. -/
theorem spec_C6_witness : StateInv (initState 157 217 false) :=
  spec_C6 (initState 157 217 false) (Reachable.init 157 217 false)

/-- C9: `reset` is idempotent — `reset (reset s) = reset s` — and on a
reachable idle state `reset` is the identity (the state is observably
unchanged). -/
theorem spec_C9 (s : DecoderState) (h : Reachable s) :
    reset (reset s) = reset s ∧ (s.buf_pos = 0 → reset s = s) := by
  refine ⟨rfl, fun h0 => ?_⟩
  exact ((reachable_inv s h).2.2.1 h0).symm

/-- C9 witness: idempotence and identity-on-idle at the freshly started
decoder. -/
theorem spec_C9_witness :
    reset (reset (initState 157 217 false)) = reset (initState 157 217 false) ∧
    ((initState 157 217 false).buf_pos = 0 →
      reset (initState 157 217 false) = initState 157 217 false) :=
  spec_C9 (initState 157 217 false) (Reachable.init 157 217 false)

/-- C10: in every reachable state, once `position ≥ 2` the `packet_size`
field is set (never the unset `None` value), and `handle_byte` is total —
it never reaches an error (`none`, the model of a Python exception) for any
byte event. -/
theorem spec_C10 (s : DecoderState) (h : Reachable s) :
    (2 ≤ s.buf_pos → ∃ ps, s.packet_size = some ps) ∧
    ∀ ss es b d, ∃ r, handle_byte s ss es b d = some r := by
  have hInv := reachable_inv s h
  refine ⟨fun h2 => ?_, fun ss es b d => ?_⟩
  · obtain ⟨ps, hps, _⟩ := hInv.2.2.2.2.1 h2
    exact ⟨ps, hps⟩
  · obtain ⟨s', evs, heq, _⟩ := handle_byte_inv s ss es b d hInv
    exact ⟨(s', evs), heq⟩

/-- C10 witness: totality at the freshly started decoder. -/
theorem spec_C10_witness :
    (2 ≤ (initState 157 217 false).buf_pos →
      ∃ ps, (initState 157 217 false).packet_size = some ps) ∧
    ∀ ss es b d, ∃ r, handle_byte (initState 157 217 false) ss es b d = some r :=
  spec_C10 (initState 157 217 false) (Reachable.init 157 217 false)

/-- C1: for every well-formed packet fed while the assembler is idle — a
header byte matching the event direction, a size byte `sz` with
`4 ≤ 4 + sz ≤ 64`, a type byte, `sz` payload bytes and a final checksum byte
making the XOR of all packet bytes zero, all with the same direction —
exactly one Packet field-event is emitted; it spans from the header byte's
start time to the checksum byte's end time and its rendered content is the
hex rendering of the exact byte sequence fed in. -/
theorem spec_C1 (s : DecoderState) (d : Bool) (sz t c : Nat) (payload : List Nat)
    (e1 e2 e3 ec : ByteEvent) (pes : List ByteEvent)
    (hidle : s.buf_pos = 0) (hacc : s.accum_bytes = []) (hsec : s.print_sec = false)
    (hsz : sz ≤ 60) (hlen : payload.length = sz)
    (h1v : e1.value = s.header d) (h1d : e1.rxtx = d)
    (h2v : e2.value = sz) (h2d : e2.rxtx = d)
    (h3v : e3.value = t) (h3d : e3.rxtx = d)
    (hpv : pes.map ByteEvent.value = payload) (hpdir : ∀ p ∈ pes, p.rxtx = d)
    (hcv : ec.value = c) (hcd : ec.rxtx = d)
    (hxor : xorAll (s.header d :: sz :: t :: (payload ++ [c])) = 0) :
    ∃ s' evs, runBytes s (e1 :: e2 :: e3 :: (pes ++ [ec])) = some (s', evs) ∧
      evs.filter isPacketEvent =
        [⟨e1.ss, ec.es, if d = TX then Ann.PACKET_TX else Ann.PACKET_RX,
          [(if d = TX then "TX" else "RX") ++ " PACKET: " ++
             bytes_to_hex (s.header d :: sz :: t :: (payload ++ [c])),
           (if d = TX then "TX" else "RX") ++ " PACKET",
           (if d = TX then "TX" else "RX") ++ "P"]⟩] := by
  refine ⟨reset s, _, run_packet s d sz t c payload e1 e2 e3 ec pes hidle hacc hsec
    hsz hlen h1v h1d h2v h2d h3v h3d hpv hpdir hcv hcd, ?_⟩
  rw [if_pos hxor]
  by_cases hpay : payload = [] <;> cases d <;> simp [hpay, isPacketEvent, TX]

/-- C1 witness: the spec's minimal round-trip packet `9D 00 01 9C` on the RX
direction with the default headers. -/
theorem spec_C1_witness :
    ∃ s' evs, runBytes (initState 157 217 false)
        [⟨0, 1, 157, RX⟩, ⟨2, 3, 0, RX⟩, ⟨4, 5, 1, RX⟩, ⟨6, 7, 156, RX⟩] =
        some (s', evs) ∧
      evs.filter isPacketEvent =
        [⟨0, 7, if RX = TX then Ann.PACKET_TX else Ann.PACKET_RX,
          [(if RX = TX then "TX" else "RX") ++ " PACKET: " ++
             bytes_to_hex ((initState 157 217 false).header RX :: 0 :: 1 :: ([] ++ [156])),
           (if RX = TX then "TX" else "RX") ++ " PACKET",
           (if RX = TX then "TX" else "RX") ++ "P"]⟩] :=
  spec_C1 (initState 157 217 false) RX 0 1 156 [] ⟨0, 1, 157, RX⟩ ⟨2, 3, 0, RX⟩
    ⟨4, 5, 1, RX⟩ ⟨6, 7, 156, RX⟩ [] rfl rfl rfl (by decide) rfl rfl rfl rfl rfl rfl
    rfl rfl (by simp) rfl rfl (by decide)

/-- C5: for a candidate packet whose final (checksum) byte leaves the
cumulative XOR nonzero, the Header, Size, Type, Data (when the payload is
non-empty) and Checksum field-events are all still emitted, no Packet
field-event is emitted, no Warning is emitted, and the state is reset to
idle. -/
theorem spec_C5 (s : DecoderState) (d : Bool) (sz t c : Nat) (payload : List Nat)
    (e1 e2 e3 ec : ByteEvent) (pes : List ByteEvent)
    (hidle : s.buf_pos = 0) (hacc : s.accum_bytes = []) (hsec : s.print_sec = false)
    (hsz : sz ≤ 60) (hlen : payload.length = sz)
    (h1v : e1.value = s.header d) (h1d : e1.rxtx = d)
    (h2v : e2.value = sz) (h2d : e2.rxtx = d)
    (h3v : e3.value = t) (h3d : e3.rxtx = d)
    (hpv : pes.map ByteEvent.value = payload) (hpdir : ∀ p ∈ pes, p.rxtx = d)
    (hcv : ec.value = c) (hcd : ec.rxtx = d)
    (hxor : xorAll (s.header d :: sz :: t :: (payload ++ [c])) ≠ 0) :
    ∃ evs, runBytes s (e1 :: e2 :: e3 :: (pes ++ [ec])) = some (reset s, evs) ∧
      evs =
        [⟨e1.ss, e1.es, Ann.HEADER, ["HEAD: 0x" ++ byte_to_hex (s.header d), "HEAD", "H"]⟩,
         ⟨e2.ss, e2.es, Ann.DATASIZE, ["DS: 0x" ++ byte_to_hex sz, "DS"]⟩] ++
        (if d = TX then
           [⟨e3.ss, e3.es, Ann.COMMAND, ["CMD: 0x" ++ byte_to_hex t, "CMD"]⟩]
         else
           [⟨e3.ss, e3.es, Ann.ANSWER, ["ANS: 0x" ++ byte_to_hex t, "ANS"]⟩]) ++
        (if payload = [] then []
         else
           [⟨(pes.headD ec).ss, (pes.getLastD ec).es,
             if d = TX then Ann.DATA_TX else Ann.DATA_RX,
             [(if d = TX then "TX" else "RX") ++ " DATA: " ++ bytes_to_hex payload,
              (if d = TX then "TX" else "RX") ++ "DATA",
              (if d = TX then "TX" else "RX") ++ "D", "D"]⟩]) ++
        [⟨ec.ss, ec.es, Ann.CHECKSUM, ["CS: 0x" ++ byte_to_hex c, "CS"]⟩] ∧
      evs.filter isPacketEvent = [] ∧ evs.filter isWarnEvent = [] := by
  have hrun := run_packet s d sz t c payload e1 e2 e3 ec pes hidle hacc hsec hsz hlen
    h1v h1d h2v h2d h3v h3d hpv hpdir hcv hcd
  rw [if_neg hxor] at hrun
  refine ⟨_, hrun, by simp, ?_, ?_⟩
  · by_cases hpay : payload = [] <;> cases d <;> simp [hpay, isPacketEvent, TX]
  · by_cases hpay : payload = [] <;> cases d <;> simp [hpay, isWarnEvent, TX]

/-- C5 witness: `9D 00 01` followed by the wrong checksum byte `00`
(cumulative XOR `9C ≠ 0`). -/
theorem spec_C5_witness :
    ∃ evs, runBytes (initState 157 217 false)
        [⟨0, 1, 157, RX⟩, ⟨2, 3, 0, RX⟩, ⟨4, 5, 1, RX⟩, ⟨6, 7, 0, RX⟩] =
        some (reset (initState 157 217 false), evs) ∧
      evs =
        [⟨0, 1, Ann.HEADER,
          ["HEAD: 0x" ++ byte_to_hex ((initState 157 217 false).header RX), "HEAD", "H"]⟩,
         ⟨2, 3, Ann.DATASIZE, ["DS: 0x" ++ byte_to_hex 0, "DS"]⟩] ++
        (if RX = TX then
           [⟨4, 5, Ann.COMMAND, ["CMD: 0x" ++ byte_to_hex 1, "CMD"]⟩]
         else
           [⟨4, 5, Ann.ANSWER, ["ANS: 0x" ++ byte_to_hex 1, "ANS"]⟩]) ++
        (if ([] : List Nat) = [] then []
         else
           [⟨(([] : List ByteEvent).headD ⟨6, 7, 0, RX⟩).ss,
             (([] : List ByteEvent).getLastD ⟨6, 7, 0, RX⟩).es,
             if RX = TX then Ann.DATA_TX else Ann.DATA_RX,
             [(if RX = TX then "TX" else "RX") ++ " DATA: " ++ bytes_to_hex [],
              (if RX = TX then "TX" else "RX") ++ "DATA",
              (if RX = TX then "TX" else "RX") ++ "D", "D"]⟩]) ++
        [⟨6, 7, Ann.CHECKSUM, ["CS: 0x" ++ byte_to_hex 0, "CS"]⟩] ∧
      evs.filter isPacketEvent = [] ∧ evs.filter isWarnEvent = [] :=
  spec_C5 (initState 157 217 false) RX 0 1 0 [] ⟨0, 1, 157, RX⟩ ⟨2, 3, 0, RX⟩
    ⟨4, 5, 1, RX⟩ ⟨6, 7, 0, RX⟩ [] rfl rfl rfl (by decide) rfl rfl rfl rfl rfl rfl
    rfl rfl (by simp) rfl rfl (by decide)

/-- C8: over a whole well-formed-shaped packet run, if the declared size
exceeds 4 (non-empty payload) exactly one Data field-event is emitted,
spanning the start time of the byte at position 4 (the first payload byte)
to the last payload byte's end time, containing exactly the payload bytes
(buffer positions 4..declared_size−1) labeled by the locked direction; for
declared size 4 (empty payload) no Data field-event is ever emitted. -/
theorem spec_C8 (s : DecoderState) (d : Bool) (sz t c : Nat) (payload : List Nat)
    (e1 e2 e3 ec : ByteEvent) (pes : List ByteEvent)
    (hidle : s.buf_pos = 0) (hacc : s.accum_bytes = []) (hsec : s.print_sec = false)
    (hsz : sz ≤ 60) (hlen : payload.length = sz)
    (h1v : e1.value = s.header d) (h1d : e1.rxtx = d)
    (h2v : e2.value = sz) (h2d : e2.rxtx = d)
    (h3v : e3.value = t) (h3d : e3.rxtx = d)
    (hpv : pes.map ByteEvent.value = payload) (hpdir : ∀ p ∈ pes, p.rxtx = d)
    (hcv : ec.value = c) (hcd : ec.rxtx = d) :
    ∃ s' evs, runBytes s (e1 :: e2 :: e3 :: (pes ++ [ec])) = some (s', evs) ∧
      (payload = [] → evs.filter isDataEvent = []) ∧
      (payload ≠ [] → evs.filter isDataEvent =
        [⟨(pes.headD ec).ss, (pes.getLastD ec).es,
          if d = TX then Ann.DATA_TX else Ann.DATA_RX,
          [(if d = TX then "TX" else "RX") ++ " DATA: " ++ bytes_to_hex payload,
           (if d = TX then "TX" else "RX") ++ "DATA",
           (if d = TX then "TX" else "RX") ++ "D", "D"]⟩]) := by
  refine ⟨reset s, _, run_packet s d sz t c payload e1 e2 e3 ec pes hidle hacc hsec
    hsz hlen h1v h1d h2v h2d h3v h3d hpv hpdir hcv hcd, ?_, ?_⟩
  · intro hpay
    by_cases hx : xorAll (s.header d :: sz :: t :: (payload ++ [c])) = 0 <;>
      cases d <;> simp [hpay, hx, isDataEvent, TX]
  · intro hpay
    by_cases hx : xorAll (s.header d :: sz :: t :: (payload ++ [c])) = 0 <;>
      cases d <;> simp [hpay, hx, isDataEvent, TX]

/-- C8 witness: a five-byte packet (declared size 5) with the single payload
byte `0x02`, and the spanning Data event it produces. -/
theorem spec_C8_witness :
    ∃ s' evs, runBytes (initState 157 217 false)
        [⟨0, 1, 157, RX⟩, ⟨2, 3, 1, RX⟩, ⟨4, 5, 1, RX⟩, ⟨6, 7, 2, RX⟩, ⟨8, 9, 0, RX⟩] =
        some (s', evs) ∧
      (([2] : List Nat) = [] → evs.filter isDataEvent = []) ∧
      (([2] : List Nat) ≠ [] → evs.filter isDataEvent =
        [⟨(([⟨6, 7, 2, RX⟩] : List ByteEvent).headD ⟨8, 9, 0, RX⟩).ss,
          (([⟨6, 7, 2, RX⟩] : List ByteEvent).getLastD ⟨8, 9, 0, RX⟩).es,
          if RX = TX then Ann.DATA_TX else Ann.DATA_RX,
          [(if RX = TX then "TX" else "RX") ++ " DATA: " ++ bytes_to_hex [2],
           (if RX = TX then "TX" else "RX") ++ "DATA",
           (if RX = TX then "TX" else "RX") ++ "D", "D"]⟩]) :=
  spec_C8 (initState 157 217 false) RX 1 1 0 [2] ⟨0, 1, 157, RX⟩ ⟨2, 3, 1, RX⟩
    ⟨4, 5, 1, RX⟩ ⟨8, 9, 0, RX⟩ [⟨6, 7, 2, RX⟩] rfl rfl rfl (by decide) rfl rfl rfl
    rfl rfl rfl rfl rfl (by decide) rfl rfl

end Streletz
